import Mathlib

/-!
Verification of the procurement-scanner ingestion pipeline
(`backend/models.py`, `backend/main.py`, `backend/tasks.py`,
`backend/matcher.py`, `backend/scrapers.py`) against its specification.

The Python code is shallowly embedded: dictionaries become structures,
datetimes become integer epoch seconds (`timedelta.days` becomes flooring
division by 86400), SQLAlchemy rows become a list of records, and the
md5-over-json content digest becomes a deterministic serialization of the
record (only determinism and equality testing of the digest are used by
the code).  External library calls (`pandas.to_datetime`) are passed in as
explicit function arguments.
-/

set_option maxRecDepth 4000

/-! ## String helpers (Python `str.lower`, substring `in`, digit runs) -/

/-- Lowercase a string character-wise, as CPython `str.lower` does for the
ASCII-only data appearing in this code base. -/
def strLower (s : String) : String := String.mk (s.toList.map Char.toLower)

/-- Python `str.strip()`: drop leading and trailing whitespace. -/
def pyStrip (s : String) : String :=
  String.mk (((s.toList.dropWhile Char.isWhitespace).reverse.dropWhile
    Char.isWhitespace).reverse)

/-- Splitter behind Python `str.split()` with no argument: words are the
maximal nonempty runs of non-whitespace characters. -/
def wordsAux : List Char → List Char → List (List Char)
  | [], acc => if acc.isEmpty then [] else [acc.reverse]
  | c :: rest, acc =>
    if c.isWhitespace then
      if acc.isEmpty then wordsAux rest [] else acc.reverse :: wordsAux rest []
    else wordsAux rest (c :: acc)

/-- Python `str.split()` with no argument. -/
def pySplit (s : String) : List String := (wordsAux s.toList []).map String.mk

/-- Membership of `sub` as a prefix of `l`, on character lists. -/
def isPrefixL : List Char → List Char → Bool
  | [], _ => true
  | _ :: _, [] => false
  | c :: cs, d :: ds => c = d && isPrefixL cs ds

/-- Occurrence of `sub` as a contiguous infix of `l`, on character lists. -/
def containsL (sub : List Char) : List Char → Bool
  | [] => isPrefixL sub []
  | c :: cs => isPrefixL sub (c :: cs) || containsL sub cs

/-- Python `sub in s` on strings. -/
def pyIn (sub s : String) : Bool := containsL sub.toList s.toList

/-- Numeric value of a decimal digit character. -/
def digitVal (c : Char) : Nat := c.toNat - 48

/-- Natural number denoted by a list of decimal digit characters
(`0` for the empty list, as in positional accumulation). -/
def natOfDigits : List Char → Nat
  | [] => 0
  | c :: cs => natOfDigitsAux (digitVal c) cs
where
  natOfDigitsAux (acc : Nat) : List Char → Nat
    | [] => acc
    | c :: cs => natOfDigitsAux (acc * 10 + digitVal c) cs

/-! ## Value parsing (`scrapers.parse_value`, `main.ProcurementScanner._parse_value`)

`parse_value` keeps only `[0-9.,]`, drops the commas, and applies Python
`float`.  After that filtering the argument of `float` holds only digits
and periods, on which `float` succeeds exactly when there is at least one
digit and at most one period; the parsed value is the usual decimal value.
Failure (and falsy input) yields `0.0`.  Values are modelled as `ℚ`. -/

/-- Python `float` restricted to strings of digits and periods: defined
exactly when at least one digit and at most one period occur. -/
def pyFloat (cs : List Char) : Option ℚ :=
  if cs.any Char.isDigit && cs.count '.' ≤ 1 then
    let ip := cs.takeWhile (fun c => c ≠ '.')
    let fp := (cs.dropWhile (fun c => c ≠ '.')).drop 1
    some ((natOfDigits ip : ℚ) + (natOfDigits fp : ℚ) / ((10 : ℚ) ^ fp.length))
  else none

/-- Embedding of `parse_value` from `backend/scrapers.py` (the copy in
`backend/main.py`, `ProcurementScanner._parse_value`, is line-for-line the
same computation). -/
def parse_value (s : String) : ℚ :=
  if s = "" then 0
  else
    let kept := s.toList.filter (fun c => c.isDigit || c = '.' || c = ',')
    let noComma := kept.filter (fun c => c ≠ ',')
    match pyFloat noComma with
    | some q => q
    | none => 0

/-! ## Date parsing (`scrapers.parse_date`)

`parse_date` strips the input, tries `datetime.strptime` with a fixed
ordered list of format strings (swallowing every failure), and finally
falls back to `pandas.to_datetime(s, errors="coerce")`.  `strptime` is
modelled below for exactly the directives the format list uses
(`%Y %m %d %H %M %S %b %B %I %p`, literals, whitespace), following the
regular expressions CPython's `_strptime` builds: bounded 1-2 digit
numeric fields, exactly four digits for `%Y`, case-insensitive matching,
whole-input consumption, and day-of-month validation at `datetime`
construction.  The pandas fallback is an external library call and is an
explicit argument of the embedded function; `none` models both a raised
error and the `NaT` (null datetime) that `errors="coerce"` returns. -/

/-- A parsed calendar timestamp (what `datetime.strptime` constructs). -/
structure PDateTime where
  year : Nat
  month : Nat
  day : Nat
  hour : Nat
  minute : Nat
  second : Nat
deriving DecidableEq, Repr

/-- One token of a compiled `strptime` format string. -/
inductive FTok where
  | fY | fm | fd | fH | fMin | fS | fb | fB | fI | fp
  | ws
  | lit (c : Char)
deriving DecidableEq, Repr

/-- Compile a format string into tokens; `none` on a directive that the
source's format list never uses.  A literal is stored lowercased because
CPython matches with `re.IGNORECASE`; whitespace in the format matches a
nonempty run of whitespace in the data. -/
def tokenizeFormat : List Char → Option (List FTok)
  | [] => some []
  | '%' :: c :: rest =>
    (tokenizeFormat rest).bind (fun ts =>
      match c with
      | 'Y' => some (FTok.fY :: ts)
      | 'm' => some (FTok.fm :: ts)
      | 'd' => some (FTok.fd :: ts)
      | 'H' => some (FTok.fH :: ts)
      | 'M' => some (FTok.fMin :: ts)
      | 'S' => some (FTok.fS :: ts)
      | 'b' => some (FTok.fb :: ts)
      | 'B' => some (FTok.fB :: ts)
      | 'I' => some (FTok.fI :: ts)
      | 'p' => some (FTok.fp :: ts)
      | _ => none)
  | '%' :: [] => none
  | c :: rest =>
    (tokenizeFormat rest).map (fun ts =>
      (if c.isWhitespace then FTok.ws else FTok.lit c.toLower) :: ts)

/-- Consume a 1-2 digit numeric field: a two-digit reading is taken when
its value lies in `[lo2, hi2]`, otherwise a one-digit reading when its
value lies in `[lo1, hi1]` (mirroring alternations such as
`(1[0-2]|0[1-9]|[1-9])` for `%m`). -/
def take2In (lo2 hi2 lo1 hi1 : Nat) : List Char → Option (Nat × List Char)
  | c1 :: c2 :: rest =>
    if c1.isDigit && c2.isDigit
        && decide (lo2 ≤ 10 * digitVal c1 + digitVal c2)
        && decide (10 * digitVal c1 + digitVal c2 ≤ hi2) then
      some (10 * digitVal c1 + digitVal c2, rest)
    else if c1.isDigit && decide (lo1 ≤ digitVal c1) && decide (digitVal c1 ≤ hi1) then
      some (digitVal c1, c2 :: rest)
    else none
  | [c1] =>
    if c1.isDigit && decide (lo1 ≤ digitVal c1) && decide (digitVal c1 ≤ hi1) then
      some (digitVal c1, [])
    else none
  | [] => none

/-- Consume exactly four digits (CPython `%Y` compiles to four `\d`). -/
def take4Digits : List Char → Option (Nat × List Char)
  | c1 :: c2 :: c3 :: c4 :: rest =>
    if c1.isDigit && c2.isDigit && c3.isDigit && c4.isDigit then
      some (natOfDigits [c1, c2, c3, c4], rest)
    else none
  | _ => none

/-- Consume one name from a table, returning its 1-based index; tables are
lowercase and the data stream is lowercased before matching. -/
def takeName (names : List String) (cs : List Char) : Option (Nat × List Char) :=
  go names 1
where
  go : List String → Nat → Option (Nat × List Char)
    | [], _ => none
    | n :: ns, i =>
      if isPrefixL n.toList cs then some (i, cs.drop n.toList.length)
      else go ns (i + 1)

/-- C-locale month abbreviations recognised by `%b`. -/
def monthAbbrs : List String :=
  ["jan", "feb", "mar", "apr", "may", "jun", "jul", "aug", "sep", "oct", "nov", "dec"]

/-- C-locale full month names recognised by `%B`. -/
def monthNames : List String :=
  ["january", "february", "march", "april", "may", "june", "july", "august",
   "september", "october", "november", "december"]

/-- Accumulated directive values, with `datetime.strptime` defaults. -/
structure PParts where
  year : Nat := 1900
  month : Nat := 1
  day : Nat := 1
  hour : Nat := 0
  minute : Nat := 0
  second : Nat := 0
  hour12 : Option Nat := none
  isPM : Option Bool := none
deriving Repr

/-- Run a compiled format over a (lowercased) data stream; succeeds only
when the whole stream is consumed. -/
def runToks : List FTok → PParts → List Char → Option PParts
  | [], st, cs => if cs.isEmpty then some st else none
  | FTok.fY :: ts, st, cs =>
    (take4Digits cs).bind (fun p => runToks ts { st with year := p.1 } p.2)
  | FTok.fm :: ts, st, cs =>
    (take2In 1 12 1 9 cs).bind (fun p => runToks ts { st with month := p.1 } p.2)
  | FTok.fd :: ts, st, cs =>
    (take2In 1 31 1 9 cs).bind (fun p => runToks ts { st with day := p.1 } p.2)
  | FTok.fH :: ts, st, cs =>
    (take2In 0 23 0 9 cs).bind (fun p => runToks ts { st with hour := p.1 } p.2)
  | FTok.fMin :: ts, st, cs =>
    (take2In 0 59 0 9 cs).bind (fun p => runToks ts { st with minute := p.1 } p.2)
  | FTok.fS :: ts, st, cs =>
    (take2In 0 59 0 9 cs).bind (fun p => runToks ts { st with second := p.1 } p.2)
  | FTok.fb :: ts, st, cs =>
    (takeName monthAbbrs cs).bind (fun p => runToks ts { st with month := p.1 } p.2)
  | FTok.fB :: ts, st, cs =>
    (takeName monthNames cs).bind (fun p => runToks ts { st with month := p.1 } p.2)
  | FTok.fI :: ts, st, cs =>
    (take2In 1 12 1 9 cs).bind (fun p => runToks ts { st with hour12 := some p.1 } p.2)
  | FTok.fp :: ts, st, cs =>
    (takeName ["am", "pm"] cs).bind (fun p =>
      runToks ts { st with isPM := some (p.1 = 2) } p.2)
  | FTok.ws :: ts, st, cs =>
    match cs with
    | [] => none
    | c :: cs2 =>
      if c.isWhitespace then runToks ts st (cs2.dropWhile Char.isWhitespace) else none
  | FTok.lit c :: ts, st, cs =>
    match cs with
    | [] => none
    | d :: cs2 => if d = c then runToks ts st cs2 else none

/-- Gregorian leap-year test. -/
def isLeapYear (y : Nat) : Bool :=
  y % 4 = 0 && (y % 100 ≠ 0 || y % 400 = 0)

/-- Number of days of month `m` of year `y` (months are 1-12 here). -/
def daysInMonth (y m : Nat) : Nat :=
  if m = 2 then (if isLeapYear y then 29 else 28)
  else if m = 4 || m = 6 || m = 9 || m = 11 then 30
  else 31

/-- Resolve `%I`/`%p` into a 24-hour value and validate ranges the way
`datetime(...)` construction does. -/
def finishParts (st : PParts) : Option PDateTime :=
  let hour :=
    match st.hour12, st.isPM with
    | some h12, some pm => h12 % 12 + (if pm then 12 else 0)
    | some h12, none => h12
    | none, _ => st.hour
  if 1 ≤ st.year && 1 ≤ st.day && st.day ≤ daysInMonth st.year st.month then
    some ⟨st.year, st.month, st.day, hour, st.minute, st.second⟩
  else none

/-- Embedding of `datetime.strptime(s, fmt)` for the directives used by
the source's format lists; `none` models a raised `ValueError`. -/
def strptime (fmt s : String) : Option PDateTime :=
  match tokenizeFormat fmt.toList with
  | none => none
  | some toks =>
    match runToks toks {} (strLower s).toList with
    | some st => finishParts st
    | none => none

/-- The ordered format list of `parse_date` in `backend/scrapers.py`. -/
def dateFormats : List String :=
  ["%Y-%m-%d", "%d/%m/%Y", "%m/%d/%Y", "%Y-%m-%d %H:%M:%S",
   "%d-%b-%Y", "%d %b %Y", "%B %d, %Y", "%d %B %Y",
   "%Y-%m-%dT%H:%M:%S", "%Y-%m-%dT%H:%M:%SZ", "%d-%m-%Y",
   "%b %d, %Y", "%d %b %Y %I:%M %p"]

/-- The `for fmt in formats: try ... except: continue` loop. -/
def tryFormats : List String → String → Option PDateTime
  | [], _ => none
  | f :: fs, s =>
    match strptime f s with
    | some d => some d
    | none => tryFormats fs s

/-- Embedding of `parse_date` from `backend/scrapers.py`.  `pandasParse`
stands for the external `pd.to_datetime(-, errors="coerce")` fallback
(`none` models both an exception, caught by the bare `except`, and the
`NaT` null that `coerce` yields on unparseable input). -/
def parse_date (pandasParse : String → Option PDateTime) (s : String) : Option PDateTime :=
  if s = "" then none
  else
    let t := pyStrip s
    match tryFormats dateFormats t with
    | some d => some d
    | none => pandasParse t

/-! ## Data model and content digest (`backend/models.py`)

Candidate dictionaries (`tender_data`) become `TenderData`; rows of the
`tenders` table become `StoredTender`; the table itself is a list of rows
in insertion order, so SQLAlchemy `query(...).filter(...).first()` is the
first matching list element.  Datetimes are integer epoch seconds.
`json.dumps` of a string list is modelled by a separator join, and the
md5-over-sorted-json digest of the whole candidate dictionary by a
deterministic serialization of all of its fields: the code only ever
compares digests for equality, and both functions are deterministic in
the candidate record. -/

/-- A normalized candidate record, the `tender_data` dictionary handed to
the persistence layer (`posted_date`/`closing_date` may be null). -/
structure TenderData where
  tender_id : String
  title : String
  organization : String
  portal : String
  portal_url : String
  value : ℚ
  closing_date : Option Int
  posted_date : Option Int
  description : String
  location : String
  categories : List String
  keywords : List String
  tender_url : String
  documents_url : String
  priority : String
  matching_courses : List String
deriving DecidableEq, Repr

/-- Stand-in for `json.dumps` on a list of strings: a deterministic
serialization, compared only for equality. -/
def jsonDumpList (l : List String) : String := String.intercalate ";" l

/-- Serialization of an optional epoch timestamp. -/
def optIntRepr : Option Int → String
  | none => "None"
  | some n => toString n

/-- Stand-in for `hashlib.md5(json.dumps(tender_data, sort_keys=True,
default=str).encode()).hexdigest()`: a deterministic digest of every
field of the candidate record. -/
def contentHash (t : TenderData) : String :=
  String.intercalate "|"
    [t.tender_id, t.title, t.organization, t.portal, t.portal_url,
     toString t.value.num, toString t.value.den,
     optIntRepr t.closing_date, optIntRepr t.posted_date,
     t.description, t.location,
     jsonDumpList t.categories, jsonDumpList t.keywords,
     t.tender_url, t.documents_url, t.priority,
     jsonDumpList t.matching_courses]

/-- A row of the `tenders` table (`class Tender` in `backend/models.py`).
Text columns holding JSON hold the serialized form. -/
structure StoredTender where
  id : String
  tender_id : String
  title : String
  organization : String
  portal : String
  portal_url : String
  value : ℚ
  closing_date : Option Int
  posted_date : Option Int
  description : String
  location : String
  categories : String
  keywords : String
  tender_url : String
  documents_url : String
  last_updated : Int
  is_active : Bool
  hash : Option String
  priority : String
  matching_courses : String
deriving DecidableEq, Repr

/-- `db.query(Tender).filter(Tender.tender_id == tid).first()`: the
lookup the save path performs — on `tender_id` alone. -/
def queryFirstByTenderId : List StoredTender → String → Option StoredTender
  | [], _ => none
  | r :: rest, tid =>
    if r.tender_id = tid then some r else queryFirstByTenderId rest tid

/-- Mutate the first row whose `tender_id` is `tid`, as assigning to the
ORM object returned by `.first()` does. -/
def updateFirst : List StoredTender → String → (StoredTender → StoredTender) → List StoredTender
  | [], _, _ => []
  | r :: rest, tid, f =>
    if r.tender_id = tid then f r :: rest else r :: updateFirst rest tid f

/-- The field assignments of the update branch of
`models.save_tender_to_db` (lines 68-83): every mutable field is
overwritten from the candidate, `last_updated` is set to now and `hash`
to the incoming digest; `id`, `tender_id`, `posted_date`, `is_active` and
the contact columns are untouched. -/
def applyUpdate (r : StoredTender) (t : TenderData) (h : String) (now : Int) : StoredTender :=
  { r with
    title := t.title
    organization := t.organization
    portal := t.portal
    portal_url := t.portal_url
    value := t.value
    closing_date := t.closing_date
    description := t.description
    location := t.location
    categories := jsonDumpList t.categories
    keywords := jsonDumpList t.keywords
    tender_url := t.tender_url
    documents_url := t.documents_url
    last_updated := now
    hash := some h
    priority := t.priority
    matching_courses := jsonDumpList t.matching_courses }

/-- The insert branch of `models.save_tender_to_db` (lines 91-110):
`id` is the bare `tender_id`, `is_active` and `last_updated` come from
the column defaults. -/
def newTender (t : TenderData) (h : String) (now : Int) : StoredTender :=
  { id := t.tender_id
    tender_id := t.tender_id
    title := t.title
    organization := t.organization
    portal := t.portal
    portal_url := t.portal_url
    value := t.value
    closing_date := t.closing_date
    posted_date := t.posted_date
    description := t.description
    location := t.location
    categories := jsonDumpList t.categories
    keywords := jsonDumpList t.keywords
    tender_url := t.tender_url
    documents_url := t.documents_url
    last_updated := now
    is_active := true
    hash := some h
    priority := t.priority
    matching_courses := jsonDumpList t.matching_courses }

/-- Embedding of `save_tender_to_db` from `backend/models.py` (the copy
imported by `backend/tasks.py`).  Returns the table after the call and
the boolean the function returns: `true` only for a newly inserted row;
`false` both for an overwrite and for a skipped write (identical digest,
or a stored row whose `hash` column is NULL). -/
def save_tender_to_db (db : List StoredTender) (t : TenderData) (now : Int) :
    List StoredTender × Bool :=
  let content_hash := contentHash t
  match queryFirstByTenderId db t.tender_id with
  | some existing =>
    match existing.hash with
    | some current =>
      if current ≠ content_hash then
        (updateFirst db t.tender_id (fun r => applyUpdate r t content_hash now), false)
      else (db, false)
    | none => (db, false)
  | none => (db ++ [newTender t content_hash now], true)

/-- Embedding of the save loop of `tasks._process_tenders` (lines
159-170): every candidate is saved; `was_new` increments the `new`
counter and every other outcome increments the `updated` counter.  The
source's `for` loop over mutable counters is written as structural
recursion; addition of the per-record contributions is associative, so
the counts agree. -/
def processTenders (db : List StoredTender) (batch : List TenderData) (now : Int) :
    List StoredTender × Nat × Nat :=
  match batch with
  | [] => (db, 0, 0)
  | t :: rest =>
    let s := save_tender_to_db db t now
    let p := processTenders s.1 rest now
    (p.1, (if s.2 then 1 else 0) + p.2.1, (if s.2 then 0 else 1) + p.2.2)

/-- The list of `tender_id` values present in the table. -/
def idsOf (db : List StoredTender) : List String := db.map (fun r => r.tender_id)

/-! ## Relevance filter (`main.ProcurementScanner._is_training_related`) -/

/-- The extended training keyword list of `_is_training_related`
(`backend/main.py` lines 1330-1338). -/
def training_keywords : List String :=
  ["training", "formation", "education", "éducation", "learning", "apprentissage",
   "development", "développement", "coaching", "certification", "course", "cours",
   "workshop", "atelier", "seminar", "séminaire", "instruction", "enseignement",
   "professional development", "développement professionnel", "upskilling",
   "reskilling", "curriculum", "programme", "instructor", "instructeur",
   "facilitation", "e-learning", "mentoring", "mentorat", "tutorial", "tutoriel",
   "capacity building", "renforcement des capacités", "skill", "compétence"]

/-- The keyword scan that forms the tail of `_is_training_related`
(its comment calls it the original logic). -/
def trainingKeywordScan (t : TenderData) : Bool :=
  let text := strLower (t.title ++ " " ++ t.description)
  training_keywords.any (fun k => pyIn k text)

/-- Embedding of `_is_training_related` (`backend/main.py` lines
1321-1340): the docstring marks it "temporarily less restrictive for
testing" — any candidate with a truthy title and description is accepted
before the keyword scan is reached. -/
def is_training_related (t : TenderData) : Bool :=
  if t.title ≠ "" && t.description ≠ "" then true
  else trainingKeywordScan t

/-! ## Course matching (`main.TenderMatcher.match_courses`) -/

/-- The category table `TKA_COURSES` of `backend/main.py` (lines
103-136): category id ↦ (keywords, course names). -/
def TKA_COURSES_main : List (String × List String × List String) :=
  [("project-management",
    (["prince2", "pmp", "project management", "capm", "msp", "portfolio",
      "program management", "pmo", "agile project", "pmbok", "pmi"],
     ["PRINCE2 Foundation", "PRINCE2 Practitioner", "PRINCE2 Agile",
      "PMP Certification", "CAPM", "MSP", "Portfolio Management",
      "Program Management"])),
   ("it-technical",
    (["itil", "cloud", "aws", "azure", "devops", "docker", "kubernetes",
      "linux", "python", "java", "database", "sql", "cisco", "vmware",
      "microsoft", "oracle", "sap"],
     ["ITIL 4 Foundation", "AWS Solutions Architect", "Azure Fundamentals",
      "DevOps Certification", "Linux Administration", "Python Programming",
      "Java Development"])),
   ("cybersecurity",
    (["security", "cyber", "cissp", "ethical hacking", "penetration",
      "iso 27001", "gdpr", "ceh", "comptia security", "firewall", "soc",
      "siem", "incident response"],
     ["CISSP Certification", "Ethical Hacking", "ISO 27001",
      "Security Awareness", "CompTIA Security+", "CEH", "Penetration Testing"])),
   ("agile-scrum",
    (["agile", "scrum", "safe", "kanban", "sprint", "product owner",
      "scrum master", "lean", "jira", "confluence", "retrospective", "backlog"],
     ["Scrum Master Certification", "Product Owner Certification",
      "SAFe Agilist", "Agile Coach", "Kanban Training"])),
   ("leadership",
    (["leadership", "management", "executive", "coaching", "change management",
      "transformation", "strategic", "team building", "communication",
      "stakeholder"],
     ["Leadership Excellence", "Executive Coaching", "Change Management",
      "Strategic Leadership", "Team Leadership"])),
   ("data-analytics",
    (["data", "analytics", "power bi", "tableau", "excel",
      "business intelligence", "visualization", "reporting", "dashboard",
      "kpi", "metrics", "sql"],
     ["Power BI Training", "Tableau Certification", "Advanced Excel",
      "Data Analytics", "Business Intelligence", "SQL for Analytics"])),
   ("soft-skills",
    (["communication", "presentation", "negotiation", "time management",
      "emotional intelligence", "conflict", "teamwork", "public speaking",
      "writing"],
     ["Presentation Skills", "Negotiation Skills", "Time Management",
      "Business Communication", "Emotional Intelligence",
      "Conflict Resolution"])),
   ("compliance",
    (["compliance", "audit", "risk management", "governance", "quality",
      "iso", "regulatory", "health safety", "privacy", "sox", "grc"],
     ["ISO 9001", "Risk Management", "Compliance Training",
      "Internal Auditor", "Health & Safety", "GDPR Compliance"]))]

/-- `category in TKA_COURSES` / `TKA_COURSES[category]`. -/
def lookupTKA (cat : String) : Option (List String × List String) :=
  (TKA_COURSES_main.find? (fun p => p.1 = cat)).map (fun p => p.2)

/-- The inner loop of `match_courses`: for each course of an attached
category, keep it when the full course name occurs in the tender text, or
a word of the course name longer than 3 characters occurs, or one of the
category's first five keywords occurs. -/
def courseHits (text : String) (kws courses : List String) : List String :=
  courses.filter (fun course =>
    pyIn (strLower course) text
    || (pySplit (strLower course)).any (fun kw => kw.length > 3 && pyIn kw text)
    || (kws.take 5).any (fun kw => pyIn kw text))

/-- Embedding of `TenderMatcher.match_courses` from `backend/main.py`
(lines 1596-1619), the matcher `tasks._process_tenders` and
`main.scan_all_portals` attach courses with.  `list(set(-))` is modelled
as first-occurrence deduplication: only membership and length are used. -/
def main_match_courses (t : TenderData) : List String :=
  let text := strLower (t.title ++ " " ++ t.description ++ " "
                ++ String.intercalate " " t.keywords)
  let hits := t.categories.flatMap (fun cat =>
    match lookupTKA cat with
    | some cfg => courseHits text cfg.1 cfg.2
    | none => [])
  hits.eraseDups.take 5

/-! ## Priority (`main.TenderMatcher.calculate_priority` and
`matcher.TenderMatcher.calculate_priority`)

Two distinct calculators exist.  `backend/matcher.py` holds the additive
one; `backend/main.py` holds a rule-based one, and it is the `main`
module's `TenderMatcher` that both save loops instantiate.  `closing_date`
is modelled as an already-parsed optional timestamp (the `matcher.py`
branch that re-parses an ISO string is subsumed by `some`);
`(closing_date - utcnow()).days` is flooring division of the second
difference by 86400, as `timedelta.days` floors. -/

/-- Python `timedelta(seconds = cd - now).days`. -/
def daysUntil (cd now : Int) : Int := Int.fdiv (cd - now) 86400

/-- Embedding of `calculate_priority` from `backend/matcher.py` (lines
24-77): an additive score (value bracket, days-to-close bracket, portal
bonus, twice the matched-course count) cut at 8 (high) and 5 (medium). -/
def matcher_calculate_priority (t : TenderData) (now : Int) : String :=
  let s1 : Nat :=
    if t.value > 1000000 then 5
    else if t.value > 500000 then 3
    else if t.value > 100000 then 2
    else if t.value > 50000 then 1
    else 0
  let s2 : Nat :=
    match t.closing_date with
    | some cd =>
      if daysUntil cd now ≤ 7 then 5
      else if daysUntil cd now ≤ 14 then 3
      else if daysUntil cd now ≤ 30 then 1
      else 0
    | none => 0
  let s3 : Nat :=
    let p := strLower t.portal
    if pyIn "canadabuys" p then 3
    else if pyIn "merx" p then 2
    else if pyIn "bcbid" p then 2
    else 0
  let s4 : Nat := if t.matching_courses ≠ [] then t.matching_courses.length * 2 else 0
  let score := s1 + s2 + s3 + s4
  if score ≥ 8 then "high" else if score ≥ 5 then "medium" else "low"

/-- Embedding of `TenderMatcher.calculate_priority` from
`backend/main.py` (lines 1621-1646), the calculator the pipeline actually
hands tenders to: rule-based, not additive. -/
def main_calculate_priority (t : TenderData) (now : Int) : String :=
  match t.closing_date with
  | none => "low"
  | some cd =>
    let days := daysUntil cd now
    if t.value > 1000000 || days < 7 || t.matching_courses.length ≥ 3
        || t.categories.length ≥ 2 then "high"
    else if t.value > 500000 || days < 14 || t.matching_courses.length ≥ 1 then
      "medium"
    else "low"

/-- The priority computation as the specification words it: a
value-bracket contribution plus a days-to-close-bracket contribution plus
a source-tier bonus plus a matched-course contribution, mapped through
the fixed cutoffs score ≥ 8 ↦ high, score ≥ 5 ↦ medium. -/
def additivePrioritySpec (t : TenderData) (now : Int) : String :=
  let valueBracket : Nat :=
    if t.value > 1000000 then 5
    else if t.value > 500000 then 3
    else if t.value > 100000 then 2
    else if t.value > 50000 then 1
    else 0
  let daysBracket : Nat :=
    match t.closing_date with
    | some cd =>
      if daysUntil cd now ≤ 7 then 5
      else if daysUntil cd now ≤ 14 then 3
      else if daysUntil cd now ≤ 30 then 1
      else 0
    | none => 0
  let sourceTier : Nat :=
    let p := strLower t.portal
    if pyIn "canadabuys" p then 3
    else if pyIn "merx" p then 2
    else if pyIn "bcbid" p then 2
    else 0
  let courseBonus : Nat := 2 * t.matching_courses.length
  let score := valueBracket + daysBracket + sourceTier + courseBonus
  if score ≥ 8 then "high" else if score ≥ 5 then "medium" else "low"

/-! ## Identifier synthesis (`scrapers.MERXScraper._extract_tender_id`,
`main.ProcurementScanner._parse_bidsandtenders_element`) -/

/-- Leftmost match of `/(\d+)(?:/|$)` — a slash, a nonempty digit run,
then a slash or the end of the string — returning the digit run. -/
def urlIdScan : List Char → Option (List Char)
  | [] => none
  | c :: rest =>
    if c = '/' then
      let ds := rest.takeWhile Char.isDigit
      if ds ≠ [] && (rest.drop ds.length = [] || (rest.drop ds.length).head? = some '/')
      then some ds
      else urlIdScan rest
    else urlIdScan rest

/-- Leftmost match of `#(\d+)`, returning the digit run. -/
def hashIdScan : List Char → Option (List Char)
  | [] => none
  | c :: rest =>
    if c = '#' then
      let ds := rest.takeWhile Char.isDigit
      if ds ≠ [] then some ds else hashIdScan rest
    else hashIdScan rest

/-- Deterministic stand-in for
`hashlib.md5(title.encode()).hexdigest()[:8]`: an eight-hex-character
digest; the source uses it only as a deterministic key. -/
def md5hex8 (s : String) : String :=
  toHex8 (s.toList.foldl (fun a c => (a * 131 + c.toNat) % 4294967296) 7)
where
  hexDigit (n : Nat) : Char :=
    if n < 10 then Char.ofNat (48 + n) else Char.ofNat (87 + n)
  toHex8 (n : Nat) : String :=
    String.mk [hexDigit (n / 16 ^ 7 % 16), hexDigit (n / 16 ^ 6 % 16),
               hexDigit (n / 16 ^ 5 % 16), hexDigit (n / 16 ^ 4 % 16),
               hexDigit (n / 16 ^ 3 % 16), hexDigit (n / 16 ^ 2 % 16),
               hexDigit (n / 16 % 16), hexDigit (n % 16)]

/-- Embedding of `MERXScraper._extract_tender_id` (`backend/scrapers.py`
lines 1599-1616): digits from the URL, else digits after `#` in the
title, else a digest of the title. -/
def merx_extract_tender_id (url title : String) : String :=
  match (if url = "" then none else urlIdScan url.toList) with
  | some ds => String.mk ds
  | none =>
    match hashIdScan title.toList with
    | some ds => String.mk ds
    | none => md5hex8 title

/-- Embedding of the identifier-synthesis step of
`_parse_bidsandtenders_element` (`backend/main.py` lines 1545-1552).
`idMatch` stands for the result of the `re.search` over the element's
text for a tender/bid/RFP number; when the element supplies no
identifier at all, the id is built from `datetime.now().timestamp()` —
the wall clock, modelled as the explicit argument `nowTs`. -/
def bidsandtenders_tender_id (prior : String) (idMatch : Option String) (nowTs : Int) : String :=
  if prior ≠ "" then prior
  else
    match idMatch with
    | some g => g
    | none => "BIDSANDTENDERS_" ++ toString nowTs

/-- A candidate record with neutral defaults, for concrete instances. -/
def mkTender (portal tid title descr : String) : TenderData :=
  { tender_id := tid, title := title, organization := "Org", portal := portal,
    portal_url := "", value := 0, closing_date := none, posted_date := none,
    description := descr, location := "", categories := [], keywords := [],
    tender_url := "", documents_url := "", priority := "",
    matching_courses := [] }

/-- A stored row whose `hash` column is NULL (as rows written by other
paths than the save function may be), for concrete instances. -/
def nullHashRow : StoredTender :=
  { id := "NH", tender_id := "NH", title := "Old title", organization := "o",
    portal := "p", portal_url := "", value := 1, closing_date := none,
    posted_date := none, description := "old description", location := "",
    categories := "", keywords := "", tender_url := "", documents_url := "",
    last_updated := 0, is_active := true, hash := none, priority := "",
    matching_courses := "" }

/-! ## Lemmas about the persistence primitives -/

theorem tender_id_applyUpdate (r : StoredTender) (t : TenderData) (h : String) (now : Int) :
    (applyUpdate r t h now).tender_id = r.tender_id := rfl

theorem length_updateFirst (db : List StoredTender) (tid : String)
    (f : StoredTender → StoredTender) :
    (updateFirst db tid f).length = db.length := by
  induction db with
  | nil => rfl
  | cons r rest ih =>
    simp only [updateFirst]
    split <;> simp [ih]

theorem idsOf_updateFirst (db : List StoredTender) (tid : String)
    (f : StoredTender → StoredTender) (hf : ∀ s, (f s).tender_id = s.tender_id) :
    idsOf (updateFirst db tid f) = idsOf db := by
  induction db with
  | nil => rfl
  | cons r rest ih =>
    simp only [updateFirst]
    split
    · simp [idsOf, hf]
    · simp only [idsOf, List.map_cons] at *
      rw [ih]

theorem queryFirst_eq_some (db : List StoredTender) (tid : String) (r : StoredTender)
    (h : queryFirstByTenderId db tid = some r) : r ∈ db ∧ r.tender_id = tid := by
  induction db with
  | nil => simp [queryFirstByTenderId] at h
  | cons s rest ih =>
    simp only [queryFirstByTenderId] at h
    by_cases hs : s.tender_id = tid
    · simp [hs] at h
      subst h
      exact ⟨List.mem_cons_self _ _, hs⟩
    · simp [hs] at h
      rcases ih h with ⟨hm, he⟩
      exact ⟨List.mem_cons_of_mem _ hm, he⟩

theorem queryFirst_eq_none_iff (db : List StoredTender) (tid : String) :
    queryFirstByTenderId db tid = none ↔ tid ∉ idsOf db := by
  induction db with
  | nil => simp [queryFirstByTenderId, idsOf]
  | cons s rest ih =>
    simp only [queryFirstByTenderId, idsOf, List.map_cons, List.mem_cons]
    by_cases hs : s.tender_id = tid
    · simp [hs]
    · simp only [hs, if_false]
      rw [ih]
      simp [idsOf]
      intro
      exact fun he => hs he.symm

theorem queryFirst_mem_ids (db : List StoredTender) (tid : String) (r : StoredTender)
    (h : queryFirstByTenderId db tid = some r) : tid ∈ idsOf db := by
  by_contra hn
  rw [← queryFirst_eq_none_iff] at hn
  rw [hn] at h
  exact Option.noConfusion h

theorem queryFirst_of_mem_ids (db : List StoredTender) (tid : String)
    (h : tid ∈ idsOf db) : ∃ r, queryFirstByTenderId db tid = some r := by
  cases hq : queryFirstByTenderId db tid with
  | none => exact absurd ((queryFirst_eq_none_iff db tid).mp hq) (fun hc => hc h)
  | some r => exact ⟨r, rfl⟩

theorem queryFirst_updateFirst_self (db : List StoredTender) (tid : String)
    (f : StoredTender → StoredTender) (hf : ∀ s, (f s).tender_id = s.tender_id)
    (r : StoredTender) (h : queryFirstByTenderId db tid = some r) :
    queryFirstByTenderId (updateFirst db tid f) tid = some (f r) := by
  induction db with
  | nil => simp [queryFirstByTenderId] at h
  | cons s rest ih =>
    simp only [queryFirstByTenderId, updateFirst] at *
    by_cases hs : s.tender_id = tid
    · simp [hs] at h
      subst h
      simp [queryFirstByTenderId, hs, hf]
    · simp [hs] at h ⊢
      simp [queryFirstByTenderId, hs]
      exact ih h

theorem queryFirst_updateFirst_ne (db : List StoredTender) (tid tid2 : String)
    (f : StoredTender → StoredTender) (hf : ∀ s, (f s).tender_id = s.tender_id)
    (hne : tid2 ≠ tid) :
    queryFirstByTenderId (updateFirst db tid f) tid2 = queryFirstByTenderId db tid2 := by
  induction db with
  | nil => rfl
  | cons s rest ih =>
    simp only [queryFirstByTenderId, updateFirst]
    by_cases hs : s.tender_id = tid
    · simp [queryFirstByTenderId, hf, hs]
      rw [if_neg (fun hc => hne hc.symm), if_neg (fun hc => hne hc.symm)]
    · simp only [hs, if_false, queryFirstByTenderId]
      split <;> simp [ih]

theorem queryFirst_append_one (db : List StoredTender) (x : StoredTender) (tid : String) :
    queryFirstByTenderId (db ++ [x]) tid =
      match queryFirstByTenderId db tid with
      | some r => some r
      | none => if x.tender_id = tid then some x else none := by
  induction db with
  | nil => simp [queryFirstByTenderId]
  | cons s rest ih =>
    simp only [List.cons_append, queryFirstByTenderId]
    split <;> simp [ih]

/-! ## Lemmas about `save_tender_to_db` -/

theorem save_of_absent (db : List StoredTender) (t : TenderData) (now : Int)
    (h : queryFirstByTenderId db t.tender_id = none) :
    save_tender_to_db db t now = (db ++ [newTender t (contentHash t) now], true) := by
  simp [save_tender_to_db, h]

theorem save_of_present_diff (db : List StoredTender) (t : TenderData) (now : Int)
    (r : StoredTender) (hr : queryFirstByTenderId db t.tender_id = some r)
    (h : String) (hh : r.hash = some h) (hne : h ≠ contentHash t) :
    save_tender_to_db db t now =
      (updateFirst db t.tender_id (fun s => applyUpdate s t (contentHash t) now), false) := by
  simp [save_tender_to_db, hr, hh, hne]

theorem save_of_present_same (db : List StoredTender) (t : TenderData) (now : Int)
    (r : StoredTender) (hr : queryFirstByTenderId db t.tender_id = some r)
    (hh : r.hash = some (contentHash t)) :
    save_tender_to_db db t now = (db, false) := by
  simp [save_tender_to_db, hr, hh]

theorem save_of_present_nohash (db : List StoredTender) (t : TenderData) (now : Int)
    (r : StoredTender) (hr : queryFirstByTenderId db t.tender_id = some r)
    (hh : r.hash = none) :
    save_tender_to_db db t now = (db, false) := by
  simp [save_tender_to_db, hr, hh]

theorem idsOf_save (db : List StoredTender) (t : TenderData) (now : Int) :
    idsOf (save_tender_to_db db t now).1 = idsOf db ∨
      idsOf (save_tender_to_db db t now).1 = idsOf db ++ [t.tender_id] := by
  cases hq : queryFirstByTenderId db t.tender_id with
  | none =>
    right
    rw [save_of_absent db t now hq]
    simp [idsOf, newTender]
  | some r =>
    cases hh : r.hash with
    | none =>
      left
      rw [save_of_present_nohash db t now r hq hh]
    | some h =>
      by_cases hne : h = contentHash t
      · left
        rw [save_of_present_same db t now r hq (hne ▸ hh)]
      · left
        rw [save_of_present_diff db t now r hq h hh hne]
        exact idsOf_updateFirst db t.tender_id _ (fun s => rfl)

theorem mem_idsOf_save_self (db : List StoredTender) (t : TenderData) (now : Int) :
    t.tender_id ∈ idsOf (save_tender_to_db db t now).1 := by
  cases hq : queryFirstByTenderId db t.tender_id with
  | none =>
    rw [save_of_absent db t now hq]
    simp [idsOf, newTender]
  | some r =>
    have hmem : t.tender_id ∈ idsOf db := queryFirst_mem_ids db _ r hq
    rcases idsOf_save db t now with he | he <;> rw [he]
    · exact hmem
    · exact List.mem_append_left _ hmem

theorem mem_idsOf_save_mono (db : List StoredTender) (t : TenderData) (now : Int)
    (tid : String) (h : tid ∈ idsOf db) : tid ∈ idsOf (save_tender_to_db db t now).1 := by
  rcases idsOf_save db t now with he | he <;> rw [he]
  · exact h
  · exact List.mem_append_left _ h

theorem save_of_present_general (db : List StoredTender) (t : TenderData) (now : Int)
    (h : t.tender_id ∈ idsOf db) :
    (save_tender_to_db db t now).2 = false ∧
      idsOf (save_tender_to_db db t now).1 = idsOf db := by
  rcases queryFirst_of_mem_ids db t.tender_id h with ⟨r, hq⟩
  cases hh : r.hash with
  | none =>
    rw [save_of_present_nohash db t now r hq hh]
    exact ⟨rfl, rfl⟩
  | some hv =>
    by_cases hne : hv = contentHash t
    · rw [save_of_present_same db t now r hq (hne ▸ hh)]
      exact ⟨rfl, rfl⟩
    · rw [save_of_present_diff db t now r hq hv hh hne]
      exact ⟨rfl, idsOf_updateFirst db t.tender_id _ (fun s => rfl)⟩

/-- Every row of the table carries a non-NULL `hash` column (true of
every table the save path itself builds). -/
def allHashSome (db : List StoredTender) : Prop :=
  ∀ r ∈ db, (r.hash).isSome = true

theorem mem_updateFirst (db : List StoredTender) (tid : String)
    (f : StoredTender → StoredTender) (r : StoredTender)
    (h : r ∈ updateFirst db tid f) : r ∈ db ∨ ∃ s ∈ db, r = f s := by
  induction db with
  | nil => simp [updateFirst] at h
  | cons s rest ih =>
    simp only [updateFirst] at h
    by_cases hs : s.tender_id = tid
    · rw [if_pos hs] at h
      rcases List.mem_cons.mp h with he | hm
      · exact Or.inr ⟨s, List.mem_cons_self _ _, he⟩
      · exact Or.inl (List.mem_cons_of_mem _ hm)
    · rw [if_neg hs] at h
      rcases List.mem_cons.mp h with he | hm
      · exact Or.inl (he ▸ List.mem_cons_self _ _)
      · rcases ih hm with hin | ⟨u, hu, he2⟩
        · exact Or.inl (List.mem_cons_of_mem _ hin)
        · exact Or.inr ⟨u, List.mem_cons_of_mem _ hu, he2⟩

theorem allHashSome_save (db : List StoredTender) (t : TenderData) (now : Int)
    (h : allHashSome db) : allHashSome (save_tender_to_db db t now).1 := by
  cases hq : queryFirstByTenderId db t.tender_id with
  | none =>
    rw [save_of_absent db t now hq]
    intro r hr
    rcases List.mem_append.mp hr with hm | hm
    · exact h r hm
    · simp at hm
      subst hm
      simp [newTender]
  | some r0 =>
    cases hh : r0.hash with
    | none =>
      rw [save_of_present_nohash db t now r0 hq hh]
      exact h
    | some hv =>
      by_cases hne : hv = contentHash t
      · rw [save_of_present_same db t now r0 hq (hne ▸ hh)]
        exact h
      · rw [save_of_present_diff db t now r0 hq hv hh hne]
        intro r hr
        rcases mem_updateFirst db t.tender_id _ r hr with hm | ⟨s, _, he⟩
        · exact h r hm
        · subst he
          simp [applyUpdate]

theorem queryFirst_save_self (db : List StoredTender) (t : TenderData) (now : Int)
    (h : allHashSome db) :
    ∃ r, queryFirstByTenderId (save_tender_to_db db t now).1 t.tender_id = some r ∧
      r.hash = some (contentHash t) := by
  cases hq : queryFirstByTenderId db t.tender_id with
  | none =>
    rw [save_of_absent db t now hq]
    refine ⟨newTender t (contentHash t) now, ?_, rfl⟩
    rw [queryFirst_append_one, hq]
    simp [newTender]
  | some r0 =>
    cases hh : r0.hash with
    | none =>
      have := h r0 (queryFirst_eq_some db _ r0 hq).1
      rw [hh] at this
      simp at this
    | some hv =>
      by_cases hne : hv = contentHash t
      · rw [save_of_present_same db t now r0 hq (hne ▸ hh)]
        exact ⟨r0, hq, hne ▸ hh⟩
      · rw [save_of_present_diff db t now r0 hq hv hh hne]
        refine ⟨applyUpdate r0 t (contentHash t) now, ?_, rfl⟩
        exact queryFirst_updateFirst_self db t.tender_id
          (fun s => applyUpdate s t (contentHash t) now) (fun s => rfl) r0 hq

theorem queryFirst_save_frame (db : List StoredTender) (t : TenderData) (now : Int)
    (tid : String) (hne : tid ≠ t.tender_id) :
    queryFirstByTenderId (save_tender_to_db db t now).1 tid =
      queryFirstByTenderId db tid := by
  cases hq : queryFirstByTenderId db t.tender_id with
  | none =>
    rw [save_of_absent db t now hq, queryFirst_append_one]
    have : (newTender t (contentHash t) now).tender_id = tid ↔ False := by
      simp [newTender]
      exact fun he => hne he.symm
    cases hq2 : queryFirstByTenderId db tid <;> simp [this]
  | some r0 =>
    cases hh : r0.hash with
    | none =>
      rw [save_of_present_nohash db t now r0 hq hh]
    | some hv =>
      by_cases hne2 : hv = contentHash t
      · rw [save_of_present_same db t now r0 hq (hne2 ▸ hh)]
      · rw [save_of_present_diff db t now r0 hq hv hh hne2]
        exact queryFirst_updateFirst_ne db t.tender_id tid _ (fun s => rfl) hne

/-! ## Lemmas about `processTenders` -/

theorem queryFirst_process_frame (batch : List TenderData) (db : List StoredTender)
    (now : Int) (tid : String) (h : ∀ t ∈ batch, t.tender_id ≠ tid) :
    queryFirstByTenderId (processTenders db batch now).1 tid =
      queryFirstByTenderId db tid := by
  induction batch generalizing db with
  | nil => rfl
  | cons t rest ih =>
    simp only [processTenders]
    rw [ih _ (fun u hu => h u (List.mem_cons_of_mem _ hu))]
    exact queryFirst_save_frame db t now tid
      (fun he => h t (List.mem_cons_self _ _) he.symm)

theorem allHashSome_process (batch : List TenderData) (db : List StoredTender)
    (now : Int) (h : allHashSome db) : allHashSome (processTenders db batch now).1 := by
  induction batch generalizing db with
  | nil => exact h
  | cons t rest ih =>
    simp only [processTenders]
    exact ih _ (allHashSome_save db t now h)

theorem mem_idsOf_process_mono (batch : List TenderData) (db : List StoredTender)
    (now : Int) (tid : String) (h : tid ∈ idsOf db) :
    tid ∈ idsOf (processTenders db batch now).1 := by
  induction batch generalizing db with
  | nil => exact h
  | cons t rest ih =>
    simp only [processTenders]
    exact ih _ (mem_idsOf_save_mono db t now tid h)

theorem mem_idsOf_process_of_mem (batch : List TenderData) (db : List StoredTender)
    (now : Int) (t : TenderData) (h : t ∈ batch) :
    t.tender_id ∈ idsOf (processTenders db batch now).1 := by
  induction batch generalizing db with
  | nil => simp at h
  | cons u rest ih =>
    simp only [processTenders]
    rcases List.mem_cons.mp h with he | hm
    · subst he
      exact mem_idsOf_process_mono rest _ now t.tender_id (mem_idsOf_save_self db t now)
    · exact ih _ hm

theorem idsOf_process_subset (batch : List TenderData) (db : List StoredTender)
    (now : Int) (tid : String) (h : tid ∈ idsOf (processTenders db batch now).1) :
    tid ∈ idsOf db ∨ tid ∈ batch.map (fun t => t.tender_id) := by
  induction batch generalizing db with
  | nil => exact Or.inl h
  | cons t rest ih =>
    simp only [processTenders] at h
    rcases ih _ h with hm | hm
    · rcases idsOf_save db t now with he | he
      · rw [he] at hm
        exact Or.inl hm
      · rw [he] at hm
        rcases List.mem_append.mp hm with hm2 | hm2
        · exact Or.inl hm2
        · simp at hm2
          subst hm2
          exact Or.inr (by simp)
    · exact Or.inr (List.mem_cons_of_mem _ hm)

theorem process_of_all_present (batch : List TenderData) (db : List StoredTender)
    (now : Int) (h : ∀ t ∈ batch, t.tender_id ∈ idsOf db) :
    (processTenders db batch now).2.1 = 0 ∧
      (processTenders db batch now).2.2 = batch.length ∧
      idsOf (processTenders db batch now).1 = idsOf db := by
  induction batch generalizing db with
  | nil => exact ⟨rfl, rfl, rfl⟩
  | cons t rest ih =>
    have hpres := save_of_present_general db t now (h t (List.mem_cons_self _ _))
    have hrest : ∀ u ∈ rest, u.tender_id ∈ idsOf (save_tender_to_db db t now).1 := by
      intro u hu
      rw [hpres.2]
      exact h u (List.mem_cons_of_mem _ hu)
    rcases ih _ hrest with ⟨h1, h2, h3⟩
    simp only [processTenders]
    rw [hpres.1]
    refine ⟨by simpa using h1, ?_, by rw [h3, hpres.2]⟩
    simp only [List.length_cons, if_neg (by decide : ¬ false = true)]
    omega

/-- Last element of the batch carrying a given `tender_id` (the last
writer of that row within one pass). -/
def lastWith (batch : List TenderData) (tid : String) : Option TenderData :=
  match batch with
  | [] => none
  | t :: rest =>
    match lastWith rest tid with
    | some u => some u
    | none => if t.tender_id = tid then some t else none

theorem lastWith_eq_some (batch : List TenderData) (tid : String) (u : TenderData)
    (h : lastWith batch tid = some u) : u ∈ batch ∧ u.tender_id = tid := by
  induction batch with
  | nil => simp [lastWith] at h
  | cons t rest ih =>
    simp only [lastWith] at h
    cases hr : lastWith rest tid with
    | some v =>
      rw [hr] at h
      cases h
      rcases ih hr with ⟨hm, he⟩
      exact ⟨List.mem_cons_of_mem _ hm, he⟩
    | none =>
      rw [hr] at h
      by_cases ht : t.tender_id = tid
      · rw [if_pos ht] at h
        cases h
        exact ⟨List.mem_cons_self _ _, ht⟩
      · rw [if_neg ht] at h
        exact Option.noConfusion h

theorem lastWith_eq_none_iff (batch : List TenderData) (tid : String) :
    lastWith batch tid = none ↔ ∀ t ∈ batch, t.tender_id ≠ tid := by
  induction batch with
  | nil => simp [lastWith]
  | cons t rest ih =>
    simp only [lastWith]
    cases hr : lastWith rest tid with
    | some v =>
      constructor
      · intro hc
        exact Option.noConfusion hc
      · intro hall
        rcases lastWith_eq_some rest tid v hr with ⟨hm, he⟩
        exact absurd he (hall v (List.mem_cons_of_mem _ hm))
    | none =>
      by_cases ht : t.tender_id = tid
      · rw [if_pos ht]
        constructor
        · intro hc
          exact Option.noConfusion hc
        · intro hall
          exact absurd ht (hall t (List.mem_cons_self _ _))
      · rw [if_neg ht]
        constructor
        · intro _ u hu
          rcases List.mem_cons.mp hu with he | hm
          · exact he ▸ ht
          · exact (ih.mp hr) u hm
        · intro _
          rfl

theorem lastWith_isSome_of_mem (batch : List TenderData) (t : TenderData)
    (h : t ∈ batch) : ∃ u, lastWith batch t.tender_id = some u := by
  cases hl : lastWith batch t.tender_id with
  | some u => exact ⟨u, rfl⟩
  | none => exact absurd rfl ((lastWith_eq_none_iff batch t.tender_id).mp hl t h)

/-- After one pass over a batch (over a table whose rows all carry a
digest), the row of each identifier written by the batch carries the
digest of the last candidate of the batch with that identifier. -/
theorem process_final_hash (batch : List TenderData) (db : List StoredTender)
    (now : Int) (tid : String) (tl : TenderData) (hs : allHashSome db)
    (hl : lastWith batch tid = some tl) :
    ∃ r, queryFirstByTenderId (processTenders db batch now).1 tid = some r ∧
      r.hash = some (contentHash tl) := by
  induction batch generalizing db with
  | nil => simp [lastWith] at hl
  | cons t rest ih =>
    simp only [lastWith] at hl
    simp only [processTenders]
    cases hr : lastWith rest tid with
    | some u =>
      rw [hr] at hl
      simp only [] at hl
      cases hl
      exact ih _ (allHashSome_save db t now hs) hr
    | none =>
      rw [hr] at hl
      by_cases ht : t.tender_id = tid
      · rw [if_pos ht] at hl
        cases hl
        have hnone : ∀ u ∈ rest, u.tender_id ≠ tid :=
          (lastWith_eq_none_iff rest tid).mp hr
        rw [queryFirst_process_frame rest _ now tid hnone]
        rcases queryFirst_save_self db tl now hs with ⟨r, hq, hh⟩
        rw [ht] at hq
        exact ⟨r, hq, hh⟩
      · rw [if_neg ht] at hl
        exact Option.noConfusion hl

/-! ## Auxiliary lemmas for the claims -/

theorem pyFloat_eq_none_of_no_digit (cs : List Char)
    (h : ∀ c ∈ cs, c.isDigit = false) : pyFloat cs = none := by
  unfold pyFloat
  rw [if_neg]
  intro hcond
  rcases Bool.and_eq_true_iff.mp hcond with ⟨h1, _⟩
  rcases List.any_eq_true.mp h1 with ⟨c, hc, hd⟩
  rw [h c hc] at hd
  exact Bool.noConfusion hd

theorem save_length_of_present (db : List StoredTender) (t : TenderData) (now : Int)
    (h : t.tender_id ∈ idsOf db) :
    (save_tender_to_db db t now).1.length = db.length := by
  rcases queryFirst_of_mem_ids db t.tender_id h with ⟨r, hq⟩
  cases hh : r.hash with
  | none => rw [save_of_present_nohash db t now r hq hh]
  | some hv =>
    by_cases hne : hv = contentHash t
    · rw [save_of_present_same db t now r hq (hne ▸ hh)]
    · rw [save_of_present_diff db t now r hq hv hh hne]
      exact length_updateFirst db t.tender_id _

/-! ## The claims -/

/-- C1, counterexample.  The stored table holds only a `PortalA` record,
so no record with the incoming candidate's `(portal, tenderId)` key
`("PortalB", "X")` exists; the claim then demands an insert reported as
new, but the save call (which looks up by `tender_id` alone) inserts
nothing and reports `false`. -/
theorem c1_counterexample :
    ((save_tender_to_db [] (mkTender "PortalA" "X" "Title A" "Desc A") 0).1.all
      (fun r => !(r.portal = "PortalB" && r.tender_id = "X")) = true)
    ∧ (save_tender_to_db
        (save_tender_to_db [] (mkTender "PortalA" "X" "Title A" "Desc A") 0).1
        (mkTender "PortalB" "X" "Title B" "Desc B") 0).2 = false
    ∧ (save_tender_to_db
        (save_tender_to_db [] (mkTender "PortalA" "X" "Title A" "Desc A") 0).1
        (mkTender "PortalB" "X" "Title B" "Desc B") 0).1.length = 1 := by
  decide

/-- C1, amended.  `save_tender_to_db` looks up by `tender_id` alone:
absent → the row is appended and the call reports `true`; present with a
non-NULL stored hash differing from the incoming digest → the row's
mutable fields are overwritten with the digest and timestamp set
(`applyUpdate`), the table keeps its length, and the call reports
`false`; present with an identical digest or a NULL stored hash → no
write, and the call also reports `false` — an overwrite and a skipped
write are indistinguishable in the report. -/
theorem c1_amended (db : List StoredTender) (t : TenderData) (now : Int) :
    (queryFirstByTenderId db t.tender_id = none →
      save_tender_to_db db t now = (db ++ [newTender t (contentHash t) now], true))
    ∧ (∀ r h, queryFirstByTenderId db t.tender_id = some r → r.hash = some h →
        h ≠ contentHash t →
        (save_tender_to_db db t now).2 = false
        ∧ (save_tender_to_db db t now).1
            = updateFirst db t.tender_id (fun s => applyUpdate s t (contentHash t) now)
        ∧ (save_tender_to_db db t now).1.length = db.length
        ∧ queryFirstByTenderId (save_tender_to_db db t now).1 t.tender_id
            = some (applyUpdate r t (contentHash t) now))
    ∧ (∀ r, queryFirstByTenderId db t.tender_id = some r →
        (r.hash = some (contentHash t) ∨ r.hash = none) →
        save_tender_to_db db t now = (db, false)) := by
  refine ⟨fun h => save_of_absent db t now h, ?_, ?_⟩
  · intro r h hq hh hne
    have hs := save_of_present_diff db t now r hq h hh hne
    refine ⟨by rw [hs], by rw [hs], ?_, ?_⟩
    · rw [hs]
      exact length_updateFirst db t.tender_id _
    · rw [hs]
      exact queryFirst_updateFirst_self db t.tender_id
        (fun s => applyUpdate s t (contentHash t) now) (fun s => rfl) r hq
  · intro r hq hor
    rcases hor with hh | hh
    · exact save_of_present_same db t now r hq hh
    · exact save_of_present_nohash db t now r hq hh

/-- C1, witness: the insert branch of the amended claim at a concrete
candidate over the empty table. -/
theorem c1_amended_witness :
    save_tender_to_db [] (mkTender "CanadaBuys" "W1" "T" "D") 5
      = ([newTender (mkTender "CanadaBuys" "W1" "T" "D")
          (contentHash (mkTender "CanadaBuys" "W1" "T" "D")) 5], true) :=
  (c1_amended [] (mkTender "CanadaBuys" "W1" "T" "D") 5).1 rfl

/-- C2, counterexample.  Saving the one-candidate batch twice: on the
second pass the record is unchanged, yet the processing loop counts it as
updated (`was_new = False` increments the `updated` counter), so the
second-pass updated count is 1, not the 0 the claim states. -/
theorem c2_counterexample :
    (processTenders (processTenders [] [mkTender "MERX" "C2" "T" "D"] 0).1
      [mkTender "MERX" "C2" "T" "D"] 0).2.2 = 1 := by
  decide

/-- C2, amended.  Replaying an identical batch over the table the first
pass built yields zero records counted as new, but every record of the
batch is counted as updated (the save call reports one boolean, so the
loop cannot distinguish an overwrite from an unchanged record); the
stored identifiers are unchanged and every stored record's content hash
is unchanged. -/
theorem c2_amended (batch : List TenderData) (now1 now2 : Int) :
    ((processTenders (processTenders [] batch now1).1 batch now2).2.1 = 0)
    ∧ ((processTenders (processTenders [] batch now1).1 batch now2).2.2 = batch.length)
    ∧ (idsOf (processTenders (processTenders [] batch now1).1 batch now2).1
        = idsOf (processTenders [] batch now1).1)
    ∧ (∀ tid, (queryFirstByTenderId
          (processTenders (processTenders [] batch now1).1 batch now2).1 tid).map
            (fun r => r.hash)
        = (queryFirstByTenderId (processTenders [] batch now1).1 tid).map
            (fun r => r.hash)) := by
  have hnil : allHashSome ([] : List StoredTender) :=
    fun r hr => absurd hr (List.not_mem_nil r)
  have hdb1 : allHashSome (processTenders [] batch now1).1 :=
    allHashSome_process batch [] now1 hnil
  have hpresent : ∀ t ∈ batch, t.tender_id ∈ idsOf (processTenders [] batch now1).1 :=
    fun t ht => mem_idsOf_process_of_mem batch [] now1 t ht
  rcases process_of_all_present batch (processTenders [] batch now1).1 now2 hpresent with
    ⟨h1, h2, h3⟩
  refine ⟨h1, h2, h3, ?_⟩
  intro tid
  by_cases hmem : tid ∈ idsOf (processTenders [] batch now1).1
  · have hbatch : tid ∈ batch.map (fun t => t.tender_id) := by
      rcases idsOf_process_subset batch [] now1 tid hmem with hc | hc
      · exact absurd hc (List.not_mem_nil tid)
      · exact hc
    rcases List.mem_map.mp hbatch with ⟨t0, ht0, htid⟩
    rcases lastWith_isSome_of_mem batch t0 ht0 with ⟨tl, hl⟩
    rw [htid] at hl
    rcases process_final_hash batch [] now1 tid tl hnil hl with ⟨r1, hq1, hh1⟩
    rcases process_final_hash batch (processTenders [] batch now1).1 now2 tid tl hdb1 hl
      with ⟨r2, hq2, hh2⟩
    rw [hq1, hq2]
    simp [hh1, hh2]
  · have h1n : queryFirstByTenderId (processTenders [] batch now1).1 tid = none :=
      (queryFirst_eq_none_iff _ _).mpr hmem
    have h2n : queryFirstByTenderId
        (processTenders (processTenders [] batch now1).1 batch now2).1 tid = none :=
      (queryFirst_eq_none_iff _ _).mpr (by rw [h3]; exact hmem)
    rw [h1n, h2n]

/-- C3, counterexample.  Two candidates share a `tenderId` but carry
different portals; the claim demands two distinct stored records, yet
after persisting both the table holds a single record — the lookup is on
`tender_id` alone, so the second candidate is treated as the first
record's update. -/
theorem c3_counterexample :
    (mkTender "PortalA" "Y" "Title" "Desc").portal
        ≠ (mkTender "PortalB" "Y" "Other title" "Other desc").portal
    ∧ (save_tender_to_db (save_tender_to_db [] (mkTender "PortalA" "Y" "Title" "Desc") 0).1
        (mkTender "PortalB" "Y" "Other title" "Other desc") 0).1.length = 1 := by
  decide

/-- C3, amended.  `tenderId` alone is the identity key: lookup before
insert or update is `filter(Tender.tender_id == tid)`, and persisting two
candidates that share a `tenderId` — whatever their portals — leaves
exactly one stored record. -/
theorem c3_amended (t1 t2 : TenderData) (now1 now2 : Int)
    (h : t1.tender_id = t2.tender_id) :
    ((save_tender_to_db (save_tender_to_db [] t1 now1).1 t2 now2).1).length = 1 := by
  rw [save_of_absent [] t1 now1 rfl]
  show ((save_tender_to_db ([] ++ [newTender t1 (contentHash t1) now1]) t2 now2).1).length = 1
  have hmem : t2.tender_id
      ∈ idsOf (([] : List StoredTender) ++ [newTender t1 (contentHash t1) now1]) := by
    simp [idsOf, newTender, h]
  rw [save_length_of_present _ t2 now2 hmem]
  rfl

/-- C3, witness: the amended claim at two concrete candidates sharing a
`tenderId` across different portals. -/
theorem c3_amended_witness :
    ((save_tender_to_db
      (save_tender_to_db [] (mkTender "PortalA" "K" "T" "D") 0).1
      (mkTender "PortalB" "K" "T2" "D2") 1).1).length = 1 :=
  c3_amended (mkTender "PortalA" "K" "T" "D") (mkTender "PortalB" "K" "T2" "D2") 0 1 rfl

/-- C4, code bug.  A candidate whose title and description hold only
exclusion-terms vocabulary ("Equipment supply" / "Construction equipment
and supplies") and no training keyword is nonetheless accepted by the
relevance filter: `_is_training_related` returns `True` for any candidate
with a non-empty title and description — its own comment marks this
shortcut "temporarily less restrictive for testing" — while the keyword
scan beneath it (the function's original logic) rejects the candidate. -/
theorem c4_exclusion_only_accepted :
    is_training_related (mkTender "City of Edmonton" "EQ1" "Equipment supply"
      "Construction equipment and supplies") = true
    ∧ trainingKeywordScan (mkTender "City of Edmonton" "EQ1" "Equipment supply"
      "Construction equipment and supplies") = false := by
  decide

/-- C5, counterexample.  When a bids&tenders element supplies no
identifier (no prior id, no number matched in its text), the synthesized
id is built from the wall clock, not from `(title, url)`: parsing the
same element at two different instants yields two different ids. -/
theorem c5_counterexample :
    bidsandtenders_tender_id "" none 1 ≠ bidsandtenders_tender_id "" none 2
    ∧ bidsandtenders_tender_id "" none 1 = "BIDSANDTENDERS_1"
    ∧ bidsandtenders_tender_id "" none 2 = "BIDSANDTENDERS_2" := by
  decide

/-- C5, amended.  The MERX scraper's identifier synthesis is a function
of the pair `(url, title)` only — two extractions from an identical pair
always produce the identical `tenderId` — whereas the bids&tenders
element parser's fallback depends on the current timestamp and is not
deterministic across runs. -/
theorem c5_merx_deterministic (u1 t1 u2 t2 : String) (hu : u1 = u2) (ht : t1 = t2) :
    merx_extract_tender_id u1 t1 = merx_extract_tender_id u2 t2 := by
  rw [hu, ht]

/-- C5, witness: the MERX determinism claim at a concrete `(url, title)`
pair, together with the value it extracts there. -/
theorem c5_merx_deterministic_witness :
    merx_extract_tender_id "https://www.merx.com/tender/12345/view" "Tender A"
      = merx_extract_tender_id "https://www.merx.com/tender/12345/view" "Tender A" :=
  c5_merx_deterministic "https://www.merx.com/tender/12345/view" "Tender A"
    "https://www.merx.com/tender/12345/view" "Tender A" rfl rfl

/-- C6.  Value parsing keeps only digits, commas and periods, drops the
commas, and parses the rest as a decimal number, with 0 on failure:
`"$1,250,000.00 CAD"` parses to `1250000.0`, `"TBD"` parses to `0.0`,
and any input without a digit parses to `0.0`. -/
theorem c6_parse_value :
    parse_value "$1,250,000.00 CAD" = 1250000
    ∧ parse_value "TBD" = 0
    ∧ ∀ s : String, (∀ c ∈ s.toList, c.isDigit = false) → parse_value s = 0 := by
  refine ⟨?_, rfl, ?_⟩
  · show (((1250000 : Nat) : ℚ) + ((0 : Nat) : ℚ) / (10 : ℚ) ^ (2 : Nat)) = 1250000
    norm_num
  · intro s hnd
    by_cases hs : s = ""
    · simp [parse_value, hs]
    · simp only [parse_value, if_neg hs]
      rw [pyFloat_eq_none_of_no_digit]
      intro c hc
      exact hnd c (List.mem_of_mem_filter (List.mem_of_mem_filter hc))

/-- C6, witness: the digit-free branch of the claim at a concrete
unparseable value text. -/
theorem c6_parse_value_witness : parse_value "N/A" = 0 :=
  c6_parse_value.2.2 "N/A" (by decide)

/-- C7.  Date parsing strips the input, tries the fixed ordered format
list, then falls back to the permissive external parser; when every
format fails and the fallback yields the null datetime, the result is
null — and the embedding is a total function, mirroring the source's
catch-everything loop that never raises.  The format list is ordered:
`"02/03/2024"` is resolved by `%d/%m/%Y` (March 2nd), not `%m/%d/%Y`,
whichever fallback is supplied; falsy input is null. -/
theorem c7_parse_date :
    (∀ (p : String → Option PDateTime) (s : String),
        tryFormats dateFormats (pyStrip s) = none → p (pyStrip s) = none →
        parse_date p s = none)
    ∧ (∀ p : String → Option PDateTime,
        parse_date p "02/03/2024" = some ⟨2024, 3, 2, 0, 0, 0⟩)
    ∧ (∀ p : String → Option PDateTime, parse_date p "" = none) := by
  refine ⟨?_, fun p => rfl, fun p => rfl⟩
  intro p s h1 h2
  by_cases hs : s = ""
  · simp [parse_date, hs]
  · simp only [parse_date, if_neg hs]
    rw [h1]
    exact h2

/-- C7, witness: the all-formats-fail branch at a concrete unparseable
string with a fallback that cannot parse it either. -/
theorem c7_parse_date_witness : parse_date (fun _ => none) "not a date" = none :=
  c7_parse_date.1 (fun _ => none) "not a date" (by decide) rfl

/-- C8, counterexample.  For a tender with no closing date, portal
`CanadaBuys` and three matched courses, the additive score of the claim
is 3 + 6 = 9 ≥ 8, so the claim assigns `high` (as does the additive
calculator in `backend/matcher.py`); the calculator the pipeline hands
tenders to (`backend/main.py`) returns `low`. -/
theorem c8_counterexample :
    main_calculate_priority { mkTender "CanadaBuys" "P1" "T" "D" with
      matching_courses :=
        ["Leadership Excellence", "Executive Coaching", "Change Management"] } 0 = "low"
    ∧ additivePrioritySpec { mkTender "CanadaBuys" "P1" "T" "D" with
      matching_courses :=
        ["Leadership Excellence", "Executive Coaching", "Change Management"] } 0 = "high"
    ∧ matcher_calculate_priority { mkTender "CanadaBuys" "P1" "T" "D" with
      matching_courses :=
        ["Leadership Excellence", "Executive Coaching", "Change Management"] } 0 = "high" := by
  decide

/-- C8, amended.  The additive description — value bracket plus
days-to-close bracket plus source-tier bonus plus twice the matched
course count, mapped through the cutoffs score ≥ 8 ↦ high and
score ≥ 5 ↦ medium — holds of `calculate_priority` in
`backend/matcher.py`; it does not hold of the calculator the pipeline
invokes before persistence (`backend/main.py`), which is rule-based. -/
theorem c8_amended (t : TenderData) (now : Int) :
    matcher_calculate_priority t now = additivePrioritySpec t now := by
  unfold matcher_calculate_priority additivePrioritySpec
  have h4 : (if t.matching_courses ≠ [] then t.matching_courses.length * 2 else 0)
      = 2 * t.matching_courses.length := by
    cases t.matching_courses with
    | nil => simp
    | cons a l => simp [Nat.mul_comm]
  rw [h4]

/-- C9.  The course list attached to every tender before persistence —
`TenderMatcher.match_courses` of `backend/main.py`, the matcher both save
loops instantiate — holds at most 5 entries. -/
theorem c9_match_courses_capped (t : TenderData) :
    (main_match_courses t).length ≤ 5 := by
  unfold main_match_courses
  exact List.length_take_le _ _

/-- C10.  In the models-module save path, when the stored record found by
the lookup has a NULL `hash` column, the call writes nothing — the table
is returned unchanged — and reports `False`, whatever the incoming
candidate's content. -/
theorem c10_nohash_skips_write (db : List StoredTender) (t : TenderData) (now : Int)
    (r : StoredTender) (hq : queryFirstByTenderId db t.tender_id = some r)
    (hh : r.hash = none) :
    save_tender_to_db db t now = (db, false) :=
  save_of_present_nohash db t now r hq hh

/-- C10, witness: a concrete table holding one NULL-hash row and a
candidate with the same `tenderId` but different content. -/
theorem c10_nohash_skips_write_witness :
    save_tender_to_db [nullHashRow] (mkTender "p" "NH" "New title" "New description") 7
      = ([nullHashRow], false) :=
  c10_nohash_skips_write [nullHashRow] (mkTender "p" "NH" "New title" "New description") 7
    nullHashRow (by decide) rfl
